import Mathlib

/-!
Verification of the streaming buffer / flow-control layer of the AF_ALG
user-space algorithm interface (`include/crypto/if_alg.h`, Linux 4.14.2).

The header contains the real code of the inline helpers `af_alg_sndbuf`,
`af_alg_writable`, `af_alg_rcvbuf`, `af_alg_readable`, the constants
`ALG_MAX_PAGES` and `MAX_SGL_ENTS`, and the data-structure declarations.
Those are embedded here with machine-accurate integer semantics for an
LP64 configuration with 4096-byte pages: C `int` is 32-bit two's
complement, C `size_t` / `unsigned long` is 64-bit.  The bodies of the
exported functions (`af_alg_sendmsg`, `af_alg_make_sg`,
`af_alg_pull_tsgl`, `af_alg_get_rsgl`, the free/release helpers) are only
declared in the header; where a property depends on them they are
modelled from the specification, as marked in their doc comments.
-/

set_option maxRecDepth 8000

/-- PAGE_SIZE for the modelled configuration (4096-byte pages). -/
def PAGE_SIZE : Nat := 4096

/-- ALG_MAX_PAGES from if_alg.h line 26. -/
def ALG_MAX_PAGES : Nat := 16

/-- Conversion of a C `int`/signed value to `unsigned long`/`size_t`
(64-bit): reduction modulo 2^64, yielding the representing natural. -/
def uLong (i : Int) : Nat := (i % (2 ^ 64 : Int)).toNat

/-- Conversion of an unsigned machine value (given by its representing
natural) to a C `int`: truncation to the low 32 bits, interpreted as
two's complement. -/
def cInt (n : Nat) : Int :=
  if n % 2 ^ 32 < 2 ^ 31 then ((n % 2 ^ 32 : Nat) : Int)
  else ((n % 2 ^ 32 : Nat) : Int) - 2 ^ 32

/-- The subexpression `sk->sk_sndbuf & PAGE_MASK` (resp. with
`sk_rcvbuf`): the `int` field is converted to `unsigned long`, the low 12
bits are cleared by `PAGE_MASK = ~(PAGE_SIZE-1)`, and `max_t(int, ...)`
assigns the result back to an `int`. -/
def pageMasked (b : Int) : Int :=
  cInt (uLong b - uLong b % PAGE_SIZE)

/-- The inner `max_t(int, sk->sk_sndbuf & PAGE_MASK, PAGE_SIZE)` of
af_alg_sndbuf / af_alg_rcvbuf: the effective quota. -/
def alg_quota (b : Int) : Int :=
  max (pageMasked b) (PAGE_SIZE : Int)

/-- The shared body of af_alg_sndbuf and af_alg_rcvbuf (if_alg.h lines
199-206 and 225-232; the two functions are textually identical up to the
field names):
`max_t(int, max_t(int, buf & PAGE_MASK, PAGE_SIZE) - used, 0)`.
The subtraction `int - size_t` is performed in `size_t` (the `int`
operand, which is always positive here, is converted to `size_t`), and
the outer `max_t(int, _, 0)` truncates that `size_t` difference to
`int`. -/
def alg_headroom (b : Int) (u : Nat) : Int :=
  max (cInt ((alg_quota b).toNat + 2 ^ 64 - u % 2 ^ 64)) 0

/-- The socket state the four inline helpers read: the configured buffer
sizes `sk->sk_sndbuf` / `sk->sk_rcvbuf` (C `int` fields) and the context
counters `ctx->used` / `ctx->rcvused` (C `size_t` fields, represented by
naturals below 2^64). -/
structure AlgSock where
  sk_sndbuf : Int
  sk_rcvbuf : Int
  used : Nat
  rcvused : Nat

/-- af_alg_sndbuf, if_alg.h lines 199-206. -/
def af_alg_sndbuf (sk : AlgSock) : Int :=
  alg_headroom sk.sk_sndbuf sk.used

/-- af_alg_rcvbuf, if_alg.h lines 225-232. -/
def af_alg_rcvbuf (sk : AlgSock) : Int :=
  alg_headroom sk.sk_rcvbuf sk.rcvused

/-- af_alg_writable, if_alg.h lines 214-217:
`PAGE_SIZE <= af_alg_sndbuf(sk)`; PAGE_SIZE is `unsigned long`, so the
`int` result of af_alg_sndbuf is converted to `unsigned long` for the
comparison. -/
def af_alg_writable (sk : AlgSock) : Bool :=
  decide (PAGE_SIZE ≤ uLong (af_alg_sndbuf sk))

/-- af_alg_readable, if_alg.h lines 240-243:
`PAGE_SIZE <= af_alg_rcvbuf(sk)`. -/
def af_alg_readable (sk : AlgSock) : Bool :=
  decide (PAGE_SIZE ≤ uLong (af_alg_rcvbuf sk))

/-! ### Basic range facts about the embedded machine arithmetic -/

theorem cInt_range (n : Nat) : -2 ^ 31 ≤ cInt n ∧ cInt n < 2 ^ 31 := by
  unfold cInt
  split <;> omega

theorem alg_quota_lb (b : Int) : (PAGE_SIZE : Int) ≤ alg_quota b := by
  unfold alg_quota PAGE_SIZE
  exact le_max_right _ _

theorem alg_quota_ub (b : Int) : alg_quota b < 2 ^ 31 := by
  unfold alg_quota pageMasked
  have h := cInt_range (uLong b - uLong b % PAGE_SIZE)
  have : ((PAGE_SIZE : Nat) : Int) < 2 ^ 31 := by unfold PAGE_SIZE; omega
  omega

theorem alg_headroom_nonneg (b : Int) (u : Nat) : 0 ≤ alg_headroom b u := by
  unfold alg_headroom
  exact le_max_right _ _

theorem alg_headroom_ub (b : Int) (u : Nat) : alg_headroom b u < 2 ^ 31 := by
  unfold alg_headroom
  have h := cInt_range ((alg_quota b).toNat + 2 ^ 64 - u % 2 ^ 64)
  omega

/-- In the truncation-free region `used < 2^31` (which contains every
state reachable under the flow-control invariant `used ≤ quota`, since
the quota is below 2^31), the headroom computation coincides with the
mathematical `max (quota - used) 0`. -/
theorem alg_headroom_eq (b : Int) (u : Nat) (hu : u < 2 ^ 31) :
    alg_headroom b u = max (alg_quota b - (u : Int)) 0 := by
  have hq1 := alg_quota_lb b
  have hq2 := alg_quota_ub b
  have hp : (PAGE_SIZE : Int) = 4096 := by unfold PAGE_SIZE; omega
  unfold alg_headroom cInt
  split <;> omega

/-! ### Spec-modelled operations

The bodies of the exported functions declared at the bottom of if_alg.h
live in `crypto/af_alg.c` / `crypto/algif_*.c`, which are not part of
this repository snapshot.  The models below are written from the
specification's description of those operations. -/

/-- Error kinds of the layer (spec section 7). -/
inductive AlgError where
  | wouldBlock
  | keyRequired
  | resourceExhausted
  deriving DecidableEq, Repr

/-- Modelled from the spec: the body of `af_alg_sendmsg` (declared
if_alg.h line 254, body not in this snapshot).  Spec sections 4.4 and 8:
a write that would push `used` beyond the send quota is rejected with
`WouldBlock` accepting 0 bytes and without pinning anything, otherwise
the whole write is accepted and `used` is charged.  The quota is the
effective send quota computed by af_alg_sndbuf's inner expression. -/
def af_alg_sendmsg_model (sk : AlgSock) (size : Nat) :
    Except AlgError (Nat × AlgSock) :=
  if ((sk.used + size : Nat) : Int) ≤ alg_quota sk.sk_sndbuf then
    Except.ok (size, { sk with used := sk.used + size })
  else
    Except.error AlgError.wouldBlock

/-- Modelled from the spec: the pinning loop of `af_alg_make_sg`
(declared if_alg.h line 174, body not in this snapshot).  Spec section
4.1: pin ranges from the caller-supplied source one entry at a time,
stopping at the requested length or the entry cap, whichever comes
first.  Each pinned entry records how many bytes of its source range are
used. -/
def pinRanges : Nat → List Nat → Nat → List Nat
  | 0, _, _ => []
  | _ + 1, [], _ => []
  | cap + 1, r :: rs, len =>
    if len = 0 then []
    else min r len :: pinRanges cap rs (len - min r len)

/-- Modelled from the spec: `af_alg_make_sg` builds one Descriptor Set
(`struct af_alg_sgl`, if_alg.h lines 68-72, whose `pages` array has
ALG_MAX_PAGES slots) and returns the number of bytes actually pinned. -/
def af_alg_make_sg_model (ranges : List Nat) (len : Nat) : List Nat × Nat :=
  (pinRanges ALG_MAX_PAGES ranges len,
   (pinRanges ALG_MAX_PAGES ranges len).sum)

/-- The send-side accumulator state: the TX list as the byte sizes of
its entries (head = oldest) together with the `used` counter of
`struct af_alg_ctx` (if_alg.h lines 149-165). -/
structure TxState where
  tsgl : List Nat
  used : Nat
  deriving DecidableEq, Repr

/-- Modelled from the spec: the list-editing part of `af_alg_pull_tsgl`
(declared if_alg.h line 247, body not in this snapshot).  Spec section
4.2 `detach(bytes)`: remove exactly `bytes` worth of leading entries,
splitting the last touched entry if the boundary falls inside it. -/
def detachEntries : List Nat → Nat → List Nat
  | [], _ => []
  | e :: es, b =>
    if b = 0 then e :: es
    else if e ≤ b then detachEntries es (b - e)
    else (e - b) :: es

/-- Modelled from the spec: `af_alg_pull_tsgl` transfers `bytes` worth
of leading TX entries out of the accumulator and decreases `used` by the
detached amount immediately (charged at detach, not at completion). -/
def af_alg_pull_tsgl_model (st : TxState) (bytes : Nat) : TxState :=
  { tsgl := detachEntries st.tsgl bytes, used := st.used - bytes }

/-- One RX chunk (`struct af_alg_rsgl`, if_alg.h lines 85-89):
`sg_num_bytes` is the reserved size recorded when the chunk's target
ranges were pinned; `filled` is how many bytes the engine actually
produced into it. -/
structure RxChunk where
  sg_num_bytes : Nat
  filled : Nat
  deriving DecidableEq, Repr

/-- The receive-side collector: the RX chunk list plus the `rcvused`
counter of `struct af_alg_ctx`. -/
structure RxState where
  rsgl_list : List RxChunk
  rcvused : Nat
  deriving DecidableEq, Repr

/-- Modelled from the spec: `af_alg_get_rsgl` (declared if_alg.h line
263, body not in this snapshot) pins RX target ranges into a new chunk,
records the reserved size in `sg_num_bytes`, and charges `rcvused` by
the reserved size at reservation time. -/
def af_alg_get_rsgl_model (st : RxState) (reserve : Nat) : RxState :=
  { rsgl_list := st.rsgl_list ++ [⟨reserve, 0⟩],
    rcvused := st.rcvused + reserve }

/-- Modelled from the spec: the recvmsg drain of one completed RX chunk
(spec section 4.3): the head chunk's filled bytes are delivered to the
caller, the chunk is released, and `rcvused` decreases by the chunk's
full reserved size `sg_num_bytes`, not by the filled byte count. -/
def rx_drain_model (st : RxState) : Option (Nat × RxState) :=
  match st.rsgl_list with
  | [] => none
  | c :: rest =>
    some (c.filled, { rsgl_list := rest, rcvused := st.rcvused - c.sg_num_bytes })

/-- Pin/unpin accounting state for the Descriptor Set lifecycle.  Each
pinned Descriptor Set gets a fresh identifier from `nextId`; `live`
holds the sets currently pinned and not yet released, and `pinned` /
`unpinned` log every pin and every unpin event. -/
structure PoolState where
  nextId : Nat
  live : List Nat
  pinned : List Nat
  unpinned : List Nat

/-- Operations touching Descriptor Set ownership: a pin (from a write or
an RX reservation), a release of one owned set (`af_alg_free_sg` /
`af_alg_free_areq_sgls`, declared if_alg.h lines 175 and 249, bodies not
in this snapshot), and channel close, which releases everything still
owned. -/
inductive PoolOp where
  | pin
  | unpin (i : Nat)
  | close

/-- Modelled from the spec: ownership-transfer discipline of Descriptor
Sets (spec sections 4.1 and 5).  A release only ever acts on a set the
releaser currently owns (`live`); double-release is prevented by
ownership transfer, and close releases all still-owned sets. -/
def poolStep (s : PoolState) : PoolOp → PoolState
  | PoolOp.pin =>
    { s with nextId := s.nextId + 1, live := s.nextId :: s.live,
             pinned := s.nextId :: s.pinned }
  | PoolOp.unpin i =>
    if i ∈ s.live then
      { s with live := s.live.erase i, unpinned := i :: s.unpinned }
    else s
  | PoolOp.close =>
    { s with live := [], unpinned := s.live ++ s.unpinned }

/-- Run a sequence of Descriptor Set lifecycle events from the empty
channel state. -/
def poolRun (ops : List PoolOp) : PoolState :=
  ops.foldl poolStep ⟨0, [], [], []⟩

/-- The capability set of a registered algorithm category
(`struct af_alg_type`, if_alg.h lines 54-66), reduced to the two facts
the key-gating dispatch depends on: whether the category marks a key as
mandatory before first use, and whether it provides the key-less entry
points `accept_nokey` / `ops_nokey`. -/
structure AlgTypeCaps where
  keyMandatory : Bool
  hasNokeyOps : Bool

/-- Modelled from the spec: the key-gating dispatch at data-operation
time (spec section 4.7); the selection logic between `ops` and
`ops_nokey` lives in `af_alg.c`, not in this snapshot.  An operation
before a mandatory key is set fails with `KeyRequired` unless the
category provides key-less entry points. -/
def af_alg_data_op_model (t : AlgTypeCaps) (keySet : Bool) :
    Except AlgError Unit :=
  if keySet then Except.ok ()
  else if t.keyMandatory && !t.hasNokeyOps then Except.error AlgError.keyRequired
  else Except.ok ()

/-! ### Helper lemmas -/

theorem uLong_of_small (i : Int) (h0 : 0 ≤ i) (h1 : i < 2 ^ 31) :
    uLong i = i.toNat := by
  unfold uLong
  omega

theorem writable_iff (sk : AlgSock) :
    af_alg_writable sk = true ↔ (PAGE_SIZE : Int) ≤ af_alg_sndbuf sk := by
  have h0 : 0 ≤ af_alg_sndbuf sk := alg_headroom_nonneg _ _
  have h1 : af_alg_sndbuf sk < 2 ^ 31 := alg_headroom_ub _ _
  unfold af_alg_writable
  rw [uLong_of_small _ h0 h1, decide_eq_true_iff]
  omega

theorem readable_iff (sk : AlgSock) :
    af_alg_readable sk = true ↔ (PAGE_SIZE : Int) ≤ af_alg_rcvbuf sk := by
  have h0 : 0 ≤ af_alg_rcvbuf sk := alg_headroom_nonneg _ _
  have h1 : af_alg_rcvbuf sk < 2 ^ 31 := alg_headroom_ub _ _
  unfold af_alg_readable
  rw [uLong_of_small _ h0 h1, decide_eq_true_iff]
  omega

theorem pinRanges_length (ranges : List Nat) :
    ∀ cap len, (pinRanges cap ranges len).length ≤ cap := by
  induction ranges with
  | nil => intro cap len; cases cap <;> simp [pinRanges]
  | cons r rs ih =>
    intro cap len
    cases cap with
    | zero => simp [pinRanges]
    | succ c =>
      simp only [pinRanges]
      split
      · simp
      · simpa using Nat.succ_le_succ (ih c (len - min r len))

theorem pinRanges_sum_le (ranges : List Nat) :
    ∀ cap len, (pinRanges cap ranges len).sum ≤ len := by
  induction ranges with
  | nil => intro cap len; cases cap <;> simp [pinRanges]
  | cons r rs ih =>
    intro cap len
    cases cap with
    | zero => simp [pinRanges]
    | succ c =>
      simp only [pinRanges]
      split
      · simp
      · have h := ih c (len - min r len)
        simp only [List.sum_cons]
        omega

theorem pinRanges_short (ranges : List Nat) :
    ∀ cap len, (pinRanges cap ranges len).sum < len →
      (pinRanges cap ranges len).length = cap ∨ ranges.sum < len := by
  induction ranges with
  | nil =>
    intro cap len h
    cases cap <;> simp_all [pinRanges]
  | cons r rs ih =>
    intro cap len h
    cases cap with
    | zero => left; simp [pinRanges]
    | succ c =>
      simp only [pinRanges] at h ⊢
      by_cases hl : len = 0
      · omega
      · simp only [hl, if_false] at h ⊢
        simp only [List.sum_cons] at h
        have hrec := ih c (len - min r len) (by omega)
        rcases hrec with hlen | hsum
        · left; simp [hlen]
        · right
          simp only [List.sum_cons]
          omega

theorem detachEntries_sum (l : List Nat) :
    ∀ b, b ≤ l.sum → (detachEntries l b).sum + b = l.sum := by
  induction l with
  | nil => intro b hb; simp_all [detachEntries]
  | cons e es ih =>
    intro b hb
    simp only [detachEntries, List.sum_cons] at hb ⊢
    by_cases h0 : b = 0
    · simp [h0]
    · simp only [h0, if_false]
      by_cases he : e ≤ b
      · have := ih (b - e) (by omega)
        simp [he]
        omega
      · simp [he]
        omega

/-- The invariant of the Descriptor Set lifecycle model: the pin log is
a permutation of the currently live sets together with the unpin log,
the pin log has no duplicates, and every logged identifier is below the
fresh-identifier counter. -/
def poolInv (s : PoolState) : Prop :=
  s.pinned.Perm (s.live ++ s.unpinned) ∧ s.pinned.Nodup ∧
    ∀ i ∈ s.pinned, i < s.nextId

theorem poolStep_inv (s : PoolState) (op : PoolOp) (h : poolInv s) :
    poolInv (poolStep s op) := by
  obtain ⟨hperm, hnd, hbnd⟩ := h
  cases op with
  | pin =>
    simp only [poolStep, poolInv]
    refine ⟨List.Perm.cons _ hperm, ?_, ?_⟩
    · exact List.nodup_cons.2 ⟨fun hmem => absurd (hbnd _ hmem) (by omega), hnd⟩
    · intro i hi
      rcases List.mem_cons.1 hi with h1 | h2
      · omega
      · exact Nat.lt_succ_of_lt (hbnd _ h2)
  | unpin i =>
    simp only [poolStep, poolInv]
    split
    case isTrue hmem =>
      refine ⟨?_, hnd, hbnd⟩
      have h1 : s.live.Perm (i :: s.live.erase i) := List.perm_cons_erase hmem
      have h2 : (s.live ++ s.unpinned).Perm ((i :: s.live.erase i) ++ s.unpinned) :=
        h1.append_right _
      have h3 : (s.live.erase i ++ i :: s.unpinned).Perm
          (i :: (s.live.erase i ++ s.unpinned)) := List.perm_middle
      exact (hperm.trans h2).trans h3.symm
    case isFalse => exact ⟨hperm, hnd, hbnd⟩
  | close =>
    exact ⟨hperm, hnd, hbnd⟩

theorem poolRun_inv_aux (ops : List PoolOp) :
    ∀ s, poolInv s → poolInv (ops.foldl poolStep s) := by
  induction ops with
  | nil => intro s h; exact h
  | cons op rest ih =>
    intro s h
    exact ih _ (poolStep_inv s op h)

theorem poolRun_inv (ops : List PoolOp) : poolInv (poolRun ops) := by
  have hinit : poolInv ⟨0, [], [], []⟩ :=
    ⟨List.Perm.refl _, List.nodup_nil, by intro i hi; cases hi⟩
  exact poolRun_inv_aux ops _ hinit

/-- Over the whole C `int` range, clearing the low 12 bits of the two's
complement representation rounds the value down (toward minus infinity)
to a multiple of PAGE_SIZE. -/
theorem pageMasked_eq (b : Int) (hl : -2 ^ 31 ≤ b) (hu : b < 2 ^ 31) :
    pageMasked b = b - b % (PAGE_SIZE : Int) := by
  have hp : (PAGE_SIZE : Int) = 4096 := by unfold PAGE_SIZE; omega
  rw [hp]
  unfold pageMasked cInt uLong PAGE_SIZE
  split <;> omega

theorem alg_headroom_mono (b : Int) (u1 u2 : Nat) (h12 : u1 ≤ u2)
    (hu2 : u2 < 2 ^ 31) : alg_headroom b u2 ≤ alg_headroom b u1 := by
  rw [alg_headroom_eq b u1 (by omega), alg_headroom_eq b u2 hu2]
  omega

/-- MAX_SGL_ENTS, if_alg.h lines 81-82:
`(4096 - sizeof(struct af_alg_tsgl)) / sizeof(struct scatterlist) - 1`,
parametrised by the two structure sizes (which depend on the platform
ABI). -/
def MAX_SGL_ENTS (szTsgl szSg : Nat) : Nat :=
  (4096 - szTsgl) / szSg - 1

/-! ### Claim theorems -/

/-- C1: a write call that would push the session's `used` count beyond
the send quota is rejected with WouldBlock, accepts 0 bytes and pins
nothing (the sendmsg model returns an error and no successor state), and
the writability guard af_alg_writable reports the channel writable
exactly when at least PAGE_SIZE bytes of send headroom remain. -/
theorem c1_write_backpressure (sk : AlgSock) (size : Nat)
    (h : alg_quota sk.sk_sndbuf < ((sk.used + size : Nat) : Int)) :
    af_alg_sendmsg_model sk size = Except.error AlgError.wouldBlock ∧
      (af_alg_writable sk = true ↔ (PAGE_SIZE : Int) ≤ af_alg_sndbuf sk) := by
  constructor
  · unfold af_alg_sendmsg_model
    rw [if_neg (by omega)]
  · exact writable_iff sk

/-- Witness for C1: a 8192-byte write on a fresh socket with a 4096-byte
send quota is rejected with WouldBlock. -/
theorem c1_write_backpressure_witness :
    alg_quota (4096 : Int) < ((0 + 8192 : Nat) : Int) ∧
      af_alg_sendmsg_model ⟨4096, 4096, 0, 0⟩ 8192 =
        Except.error AlgError.wouldBlock :=
  ⟨by decide, (c1_write_backpressure ⟨4096, 4096, 0, 0⟩ 8192 (by decide)).1⟩

/-- C2 counterexample: the claim "af_alg_sndbuf returns the quota minus
used clamped to be non-negative and returns 0 whenever used reaches or
exceeds the quota" fails for every socket state: at sk_sndbuf = 4096
(effective quota 4096) and used = 2^31 + 8192 ≥ quota, the `size_t`
difference truncated to `int` makes af_alg_sndbuf return 2^31 - 4096,
not 0. -/
theorem c2_buf_headroom_counterexample :
    (alg_quota (4096 : Int)).toNat ≤ 2 ^ 31 + 8192 ∧
      af_alg_sndbuf ⟨4096, 0, 2 ^ 31 + 8192, 0⟩ = 2 ^ 31 - 4096 := by
  constructor <;> decide

/-- C2 (amended): for all socket states with usage counters below 2^31
(which includes every state satisfying the flow-control invariant
`used ≤ quota`, the quota being below 2^31), af_alg_sndbuf returns the
send quota minus `used` clamped to be non-negative, af_alg_rcvbuf
returns the receive quota minus `rcvused` clamped to be non-negative,
neither is negative, and each returns 0 once the usage counter reaches
its quota. -/
theorem c2_buf_headroom (sk : AlgSock) (hu : sk.used < 2 ^ 31)
    (hr : sk.rcvused < 2 ^ 31) :
    af_alg_sndbuf sk = max (alg_quota sk.sk_sndbuf - (sk.used : Int)) 0 ∧
    0 ≤ af_alg_sndbuf sk ∧
    ((alg_quota sk.sk_sndbuf).toNat ≤ sk.used → af_alg_sndbuf sk = 0) ∧
    af_alg_rcvbuf sk = max (alg_quota sk.sk_rcvbuf - (sk.rcvused : Int)) 0 ∧
    0 ≤ af_alg_rcvbuf sk ∧
    ((alg_quota sk.sk_rcvbuf).toNat ≤ sk.rcvused → af_alg_rcvbuf sk = 0) := by
  have hs := alg_headroom_eq sk.sk_sndbuf sk.used hu
  have hrr := alg_headroom_eq sk.sk_rcvbuf sk.rcvused hr
  have hq1 := alg_quota_lb sk.sk_sndbuf
  have hq2 := alg_quota_ub sk.sk_sndbuf
  have hq3 := alg_quota_lb sk.sk_rcvbuf
  have hq4 := alg_quota_ub sk.sk_rcvbuf
  unfold af_alg_sndbuf af_alg_rcvbuf
  refine ⟨hs, ?_, ?_, hrr, ?_, ?_⟩
  · exact alg_headroom_nonneg _ _
  · intro hge; rw [hs]; omega
  · exact alg_headroom_nonneg _ _
  · intro hge; rw [hrr]; omega

/-- Witness for C2 (amended): sk_sndbuf = 8192, used = 4096 gives a
4096-byte headroom, and an exhausted receive side reports 0. -/
theorem c2_buf_headroom_witness :
    (4096 : Nat) < 2 ^ 31 ∧
      af_alg_sndbuf ⟨8192, 4096, 4096, 4096⟩ =
        max (alg_quota (8192 : Int) - (4096 : Int)) 0 :=
  ⟨by decide, (c2_buf_headroom ⟨8192, 4096, 4096, 4096⟩ (by decide) (by decide)).1⟩

/-- C3: a Descriptor Set built by the pinning operation contains at most
ALG_MAX_PAGES = 16 pinned ranges, the byte count it returns never
exceeds the requested length, and when it pins fewer bytes than
requested either the 16-entry cap was hit or the source itself holds
fewer bytes than requested. -/
theorem c3_make_sg_capped (ranges : List Nat) (len : Nat) :
    (af_alg_make_sg_model ranges len).1.length ≤ ALG_MAX_PAGES ∧
    (af_alg_make_sg_model ranges len).2 ≤ len ∧
    ((af_alg_make_sg_model ranges len).2 < len →
      (af_alg_make_sg_model ranges len).1.length = ALG_MAX_PAGES ∨
        ranges.sum < len) := by
  exact ⟨pinRanges_length ranges _ _, pinRanges_sum_le ranges _ _,
    pinRanges_short ranges _ _⟩

/-- Witness for C3: pinning 20 bytes from twenty 1-byte ranges stops at
the 16-entry cap with only 16 bytes pinned. -/
theorem c3_make_sg_capped_witness :
    (af_alg_make_sg_model (List.replicate 20 1) 20).2 < 20 ∧
      ((af_alg_make_sg_model (List.replicate 20 1) 20).1.length =
          ALG_MAX_PAGES ∨ (List.replicate 20 1).sum < 20) :=
  ⟨by decide, (c3_make_sg_capped (List.replicate 20 1) 20).2.2 (by decide)⟩

/-- C4: detaching `bytes` worth of leading TX entries into a Request
Object decreases the session's `used` counter by exactly the detached
amount at the moment of detachment, and the accumulator contents stay in
sync with the decreased counter (nothing waits for request
completion). -/
theorem c4_pull_tsgl_charge (st : TxState) (bytes : Nat)
    (hsync : st.tsgl.sum = st.used) (hb : bytes ≤ st.used) :
    (af_alg_pull_tsgl_model st bytes).used + bytes = st.used ∧
    (af_alg_pull_tsgl_model st bytes).tsgl.sum =
      (af_alg_pull_tsgl_model st bytes).used := by
  have h := detachEntries_sum st.tsgl bytes (by omega)
  unfold af_alg_pull_tsgl_model
  constructor
  · simp only []
    omega
  · simp only []
    omega

/-- Witness for C4: detaching 4 bytes from a TX list holding entries of
3 and 5 bytes (used = 8) leaves used = 4 immediately. -/
theorem c4_pull_tsgl_charge_witness :
    ([3, 5] : List Nat).sum = 8 ∧ (4 : Nat) ≤ 8 ∧
      (af_alg_pull_tsgl_model ⟨[3, 5], 8⟩ 4).used + 4 = 8 :=
  ⟨by decide, by decide, (c4_pull_tsgl_charge ⟨[3, 5], 8⟩ 4 rfl (by decide)).1⟩

/-- C5: `rcvused` is charged at reservation time — af_alg_get_rsgl adds
the reserved size (recorded in the chunk's sg_num_bytes) to `rcvused`
when the RX target ranges are pinned — and draining a completed head
chunk returns its filled bytes while decreasing `rcvused` by the chunk's
full reserved size, not by the filled byte count. -/
theorem c5_rcvused_reservation (st : RxState) (reserve : Nat) (c : RxChunk)
    (rest : List RxChunk) (hhead : st.rsgl_list = c :: rest)
    (hle : c.sg_num_bytes ≤ st.rcvused) :
    (af_alg_get_rsgl_model st reserve).rcvused = st.rcvused + reserve ∧
    rx_drain_model st =
      some (c.filled, ⟨rest, st.rcvused - c.sg_num_bytes⟩) ∧
    (st.rcvused - c.sg_num_bytes) + c.sg_num_bytes = st.rcvused := by
  refine ⟨rfl, ?_, by omega⟩
  unfold rx_drain_model
  rw [hhead]

/-- Witness for C5: with one RX chunk reserved at 6 bytes but only 2
bytes filled, the drain returns 2 bytes and retires all 6 reserved bytes
from rcvused (10 to 4). -/
theorem c5_rcvused_reservation_witness :
    (⟨[⟨6, 2⟩], 10⟩ : RxState).rsgl_list = [⟨6, 2⟩] ∧ (6 : Nat) ≤ 10 ∧
      rx_drain_model ⟨[⟨6, 2⟩], 10⟩ = some (2, ⟨[], 10 - 6⟩) :=
  ⟨rfl, by decide,
    (c5_rcvused_reservation ⟨[⟨6, 2⟩], 10⟩ 5 ⟨6, 2⟩ [] rfl (by decide)).2.1⟩

/-- C6: along any sequence of Descriptor Set lifecycle events under the
ownership-transfer discipline, the unpin log never contains a duplicate
(no double release), the pin log is always accounted for by the
still-live sets plus the unpin log, and once the channel is closed every
pinned set has been unpinned exactly once (no leak). -/
theorem c6_pin_unpin_once (ops : List PoolOp) :
    (poolRun ops).unpinned.Nodup ∧
    (poolRun ops).pinned.Perm ((poolRun ops).live ++ (poolRun ops).unpinned) ∧
    (poolRun (ops ++ [PoolOp.close])).pinned.Perm
      (poolRun (ops ++ [PoolOp.close])).unpinned := by
  obtain ⟨hperm, hnd, hbnd⟩ := poolRun_inv ops
  refine ⟨?_, hperm, ?_⟩
  · exact ((hperm.nodup hnd).of_append_right)
  · have hstep : poolRun (ops ++ [PoolOp.close]) =
        poolStep (poolRun ops) PoolOp.close := by
      unfold poolRun
      rw [List.foldl_append]
      rfl
    rw [hstep]
    exact hperm

/-- C7: on a channel whose algorithm category marks a key as mandatory,
a data operation attempted before a key is set fails with KeyRequired,
unless the category provides the key-less entry points (accept_nokey /
ops_nokey), in which case it proceeds; once a key is set the operation
always proceeds. -/
theorem c7_key_gating (t : AlgTypeCaps) (hman : t.keyMandatory = true) :
    (t.hasNokeyOps = false →
      af_alg_data_op_model t false = Except.error AlgError.keyRequired) ∧
    (t.hasNokeyOps = true → af_alg_data_op_model t false = Except.ok ()) ∧
    af_alg_data_op_model t true = Except.ok () := by
  unfold af_alg_data_op_model
  cases h : t.hasNokeyOps <;> simp [hman, h]

/-- Witness for C7: a mandatory-key category without key-less entry
points rejects a key-less data operation with KeyRequired. -/
theorem c7_key_gating_witness :
    (⟨true, false⟩ : AlgTypeCaps).keyMandatory = true ∧
      af_alg_data_op_model ⟨true, false⟩ false =
        Except.error AlgError.keyRequired :=
  ⟨rfl, (c7_key_gating ⟨true, false⟩ rfl).1 rfl⟩

/-- C8: over the whole C `int` range of the configured buffer sizes, the
effective quota used by af_alg_sndbuf / af_alg_rcvbuf is the configured
size rounded down to a multiple of PAGE_SIZE and floored at PAGE_SIZE;
consequently a socket with used = 0 is always writable and one with
rcvused = 0 is always readable, no matter how small (or even negative)
the configured sizes are. -/
theorem c8_quota_rounding (sk : AlgSock)
    (hsl : -2 ^ 31 ≤ sk.sk_sndbuf) (hsu : sk.sk_sndbuf < 2 ^ 31)
    (hrl : -2 ^ 31 ≤ sk.sk_rcvbuf) (hru : sk.sk_rcvbuf < 2 ^ 31) :
    alg_quota sk.sk_sndbuf =
      max (sk.sk_sndbuf - sk.sk_sndbuf % (PAGE_SIZE : Int)) (PAGE_SIZE : Int) ∧
    alg_quota sk.sk_rcvbuf =
      max (sk.sk_rcvbuf - sk.sk_rcvbuf % (PAGE_SIZE : Int)) (PAGE_SIZE : Int) ∧
    (sk.used = 0 → af_alg_writable sk = true) ∧
    (sk.rcvused = 0 → af_alg_readable sk = true) := by
  refine ⟨?_, ?_, ?_, ?_⟩
  · unfold alg_quota
    rw [pageMasked_eq sk.sk_sndbuf hsl hsu]
  · unfold alg_quota
    rw [pageMasked_eq sk.sk_rcvbuf hrl hru]
  · intro h0
    rw [writable_iff]
    unfold af_alg_sndbuf
    rw [h0, alg_headroom_eq _ 0 (by omega)]
    have := alg_quota_lb sk.sk_sndbuf
    omega
  · intro h0
    rw [readable_iff]
    unfold af_alg_rcvbuf
    rw [h0, alg_headroom_eq _ 0 (by omega)]
    have := alg_quota_lb sk.sk_rcvbuf
    omega

/-- Witness for C8: sk_sndbuf = 10000 rounds down to a quota of 8192,
and the empty socket is writable. -/
theorem c8_quota_rounding_witness :
    -2 ^ 31 ≤ (10000 : Int) ∧ (10000 : Int) < 2 ^ 31 ∧
      alg_quota (10000 : Int) =
        max ((10000 : Int) - (10000 : Int) % (PAGE_SIZE : Int))
          (PAGE_SIZE : Int) ∧
      af_alg_writable ⟨10000, 5000, 0, 0⟩ = true :=
  ⟨by decide, by decide,
    (c8_quota_rounding ⟨10000, 5000, 0, 0⟩ (by decide) (by decide) (by decide)
      (by decide)).1,
    (c8_quota_rounding ⟨10000, 5000, 0, 0⟩ (by decide) (by decide) (by decide)
      (by decide)).2.2.1 rfl⟩

/-- C9 counterexample: af_alg_sndbuf is not antitone in `used` over the
whole `size_t` range: with sk_sndbuf = 4096, the headroom at
used = 4096 is 0 while at the larger used = 2^31 + 8192 the truncation
of the `size_t` difference to `int` reports a headroom of 2^31 - 4096,
so the socket is writable at the larger usage but not at the smaller
one. -/
theorem c9_antitone_counterexample :
    (4096 : Nat) ≤ 2 ^ 31 + 8192 ∧
      af_alg_sndbuf ⟨4096, 4096, 4096, 0⟩ <
        af_alg_sndbuf ⟨4096, 4096, 2 ^ 31 + 8192, 0⟩ ∧
      af_alg_writable ⟨4096, 4096, 2 ^ 31 + 8192, 0⟩ = true ∧
      af_alg_writable ⟨4096, 4096, 4096, 0⟩ = false := by
  refine ⟨by decide, by decide, by decide, by decide⟩

/-- C9 (amended): af_alg_sndbuf is antitone in `used` and af_alg_rcvbuf
is antitone in `rcvused` on the truncation-free region where the usage
counters stay below 2^31 (which contains every state reachable under the
flow-control invariant): smaller usage never reports less headroom, and
writability/readability at the larger usage implies it at the smaller
one. -/
theorem c9_headroom_antitone (sb rb : Int) (u1 u2 r1 r2 : Nat)
    (h12 : u1 ≤ u2) (hu2 : u2 < 2 ^ 31) (hr12 : r1 ≤ r2)
    (hr2 : r2 < 2 ^ 31) :
    af_alg_sndbuf ⟨sb, rb, u2, r2⟩ ≤ af_alg_sndbuf ⟨sb, rb, u1, r1⟩ ∧
    (af_alg_writable ⟨sb, rb, u2, r2⟩ = true →
      af_alg_writable ⟨sb, rb, u1, r1⟩ = true) ∧
    af_alg_rcvbuf ⟨sb, rb, u2, r2⟩ ≤ af_alg_rcvbuf ⟨sb, rb, u1, r1⟩ ∧
    (af_alg_readable ⟨sb, rb, u2, r2⟩ = true →
      af_alg_readable ⟨sb, rb, u1, r1⟩ = true) := by
  have hs := alg_headroom_mono sb u1 u2 h12 hu2
  have hr := alg_headroom_mono rb r1 r2 hr12 hr2
  refine ⟨hs, ?_, hr, ?_⟩
  · intro hw
    rw [writable_iff] at hw ⊢
    unfold af_alg_sndbuf at hw ⊢
    simp only [] at hw ⊢
    omega
  · intro hw
    rw [readable_iff] at hw ⊢
    unfold af_alg_rcvbuf at hw ⊢
    simp only [] at hw ⊢
    omega

/-- Witness for C9 (amended): with an 8192-byte quota, writability at
used = 4096 implies writability at used = 0. -/
theorem c9_headroom_antitone_witness :
    (0 : Nat) ≤ 4096 ∧ (4096 : Nat) < 2 ^ 31 ∧
      af_alg_writable ⟨8192, 8192, 4096, 4096⟩ = true ∧
      af_alg_writable ⟨8192, 8192, 0, 0⟩ = true :=
  ⟨by decide, by decide, by decide,
    (c9_headroom_antitone 8192 8192 0 4096 0 4096 (by decide) (by decide)
      (by decide) (by decide)).2.1 (by decide)⟩

/-- C10: MAX_SGL_ENTS is defined so that one TX chunk node
(`struct af_alg_tsgl` followed by MAX_SGL_ENTS + 1 scatterlist entries,
the extra entry being the chaining slot) fits in a single 4096-byte
page, and it is the largest entry count with that property. -/
theorem c10_max_sgl_ents (szTsgl szSg : Nat) (hs : 0 < szSg)
    (hfit : szTsgl + szSg ≤ 4096) :
    szTsgl + (MAX_SGL_ENTS szTsgl szSg + 1) * szSg ≤ 4096 ∧
    ∀ m, szTsgl + (m + 1) * szSg ≤ 4096 → m ≤ MAX_SGL_ENTS szTsgl szSg := by
  unfold MAX_SGL_ENTS
  have hd1 : 1 ≤ (4096 - szTsgl) / szSg :=
    (Nat.le_div_iff_mul_le hs).2 (by omega)
  have hdm : (4096 - szTsgl) / szSg * szSg ≤ 4096 - szTsgl :=
    Nat.div_mul_le_self _ _
  constructor
  · have hone : (4096 - szTsgl) / szSg - 1 + 1 = (4096 - szTsgl) / szSg := by
      omega
    rw [hone]
    omega
  · intro m hm
    have : m + 1 ≤ (4096 - szTsgl) / szSg :=
      (Nat.le_div_iff_mul_le hs).2 (by omega)
    omega

/-- Witness for C10: with the x86-64 sizes (24-byte af_alg_tsgl header,
24-byte scatterlist entry) MAX_SGL_ENTS = 168 and the chunk node with
its spare chaining slot fits in one page. -/
theorem c10_max_sgl_ents_witness :
    (0 : Nat) < 24 ∧ (24 + 24 : Nat) ≤ 4096 ∧
      24 + (MAX_SGL_ENTS 24 24 + 1) * 24 ≤ 4096 :=
  ⟨by decide, by decide, (c10_max_sgl_ents 24 24 (by decide) (by decide)).1⟩
